import Mathlib

/-!
Verification development for the fact-checking pipeline in
`src/agent/langChainAgent.py`.

The Python module is shallowly embedded: Python values that can appear in
the dictionaries handled by the pipeline are modelled by `PyVal`
(`None`, `str`, `int` are the cases that actually occur), raised
exceptions become `Except PyErr`, and the external collaborators
(Gemini text generation, Tavily search) are oracle parameters, since the
code treats their outputs as opaque data.
-/

namespace FactCheck

/-- Model of the Python values stored in the dictionaries the pipeline
manipulates: `None`, strings, and (for malformed search hits) integers. -/
inductive PyVal where
  | vnone : PyVal
  | vstr : String → PyVal
  | vint : Int → PyVal
deriving DecidableEq, Repr

/-- Python truthiness for the modelled values: `None` is falsy, a string is
truthy iff nonempty, an integer is truthy iff nonzero. -/
def truthy : PyVal → Bool
  | .vnone => false
  | .vstr s => s ≠ ""
  | .vint n => n ≠ 0

/-- Python `a or b`. -/
def pyOr (a b : PyVal) : PyVal := if truthy a then a else b

/-- Python `d.get(k, dflt)` once a dictionary field is modelled as a `PyVal`
with `vnone` standing for an absent key (the normalized research dicts never
store an explicit `None`, so the two cases coincide on every use site). -/
def pyGetD (v d : PyVal) : PyVal :=
  match v with
  | .vnone => d
  | v => v

/-- Embed an optional Python string (`None` or `str`). -/
def optStr : Option String → PyVal
  | Option.none => .vnone
  | Option.some s => .vstr s

/-- The exceptions the embedded code can raise: `json.JSONDecodeError`
(carrying the document that failed to parse), `TypeError`,
`pydantic.ValidationError`, and `RuntimeError`. -/
inductive PyErr where
  | jsonDecodeError : String → PyErr
  | typeError : String → PyErr
  | validationError : String → PyErr
  | runtimeError : String → PyErr
deriving DecidableEq, Repr

/-- Parsed JSON values, as returned by `json.loads`. -/
inductive JVal where
  | jnull : JVal
  | jbool : Bool → JVal
  | jnum : Int → JVal
  | jstr : String → JVal
  | jarr : List JVal → JVal
  | jobj : List (String × JVal) → JVal

/-- A raw or normalized search hit: the four dictionary entries that
`normalize_research` reads or writes.  `vnone` marks an absent key. -/
structure Hit where
  title : PyVal
  url : PyVal
  content : PyVal
  snippet : PyVal
deriving DecidableEq, Repr

/- ── String helpers for `gemini_json` ──────────────────────────────────
`text = (resp.text or "").strip()` followed by
`re.sub(r"^```(?:json)?\s*|\s*```$", "", text, flags=re.DOTALL)`.
Characters are handled as code points, matching Python `str`. -/

/-- Python `str.strip()` on a character list. -/
def trimChars (l : List Char) : List Char :=
  ((l.dropWhile Char.isWhitespace).reverse.dropWhile Char.isWhitespace).reverse

/-- The regex alternative `^```(?:json)?\s*`: an anchored leading code fence,
optionally tagged `json`, with trailing whitespace consumed greedily. -/
def stripLeadingFence (l : List Char) : List Char :=
  if List.isPrefixOf ['`', '`', '`', 'j', 's', 'o', 'n'] l then
    (l.drop 7).dropWhile Char.isWhitespace
  else if List.isPrefixOf ['`', '`', '`'] l then
    (l.drop 3).dropWhile Char.isWhitespace
  else l

/-- The regex alternative `` \s*```$ ``: a trailing code fence preceded by
optional whitespace, anchored at the end of the (already stripped) text. -/
def stripTrailingFence (l : List Char) : List Char :=
  if List.isSuffixOf ['`', '`', '`'] l then
    ((l.reverse.drop 3).dropWhile Char.isWhitespace).reverse
  else l

/-- The text `gemini_json` hands to `json.loads`: the response stripped of
surrounding whitespace and code fences. -/
def cleanText (s : String) : String :=
  String.mk (stripTrailingFence (stripLeadingFence (trimChars s.data)))

/-- The retry loop body of `gemini_json`, with the model and the JSON parser
abstracted: `responses i` is the text the service returns on attempt `i`
(attempts are numbered from 0, as by `range(retries + 1)`), and `remaining`
counts the attempts still allowed after the current one, so the loop starts
at `remaining = retries`.  When the final attempt fails to parse, the
`json.JSONDecodeError` raised by `json.loads(text)` is re-raised; it carries
the document `text` that failed to parse. -/
def gemini_json_go (parse : String → Option JVal) (responses : Nat → String)
    (attempt : Nat) : Nat → Except PyErr JVal
  | 0 =>
    match parse (cleanText (responses attempt)) with
    | Option.some j => .ok j
    | Option.none => .error (.jsonDecodeError (cleanText (responses attempt)))
  | remaining + 1 =>
    match parse (cleanText (responses attempt)) with
    | Option.some j => .ok j
    | Option.none => gemini_json_go parse responses (attempt + 1) remaining

/-- `gemini_json(model, prompt, temperature, retries)`: call Gemini and
return parsed JSON, retrying (with a tightened instruction, reflected in the
oracle's dependence on the attempt index) while parsing fails. -/
def gemini_json (parse : String → Option JVal) (responses : Nat → String)
    (retries : Nat) : Except PyErr JVal :=
  gemini_json_go parse responses 0 retries

/- ── `normalize_research` ───────────────────────────────────────────── -/

/-- Python code-point slicing `s[:n]`, defined on the modelled values:
slicing anything that is not a string raises `TypeError`. -/
def pySlice (v : PyVal) (n : Nat) : Except PyErr PyVal :=
  match v with
  | .vstr s => .ok (.vstr (String.mk (s.data.take n)))
  | _ => .error (.typeError "object is not subscriptable")

/-- The dictionary `normalize_research` builds for one raw hit. -/
def norm1 (r : Hit) : Except PyErr Hit :=
  match pySlice (pyOr r.content (pyOr r.snippet (.vstr ""))) 600 with
  | .error e => .error e
  | .ok sn =>
    .ok { title := pyOr r.title (.vstr "(no title)")
          url := pyOr r.url (.vstr "")
          content := .vnone
          snippet := sn }

/-- The first loop of `normalize_research`: build `out` by appending the
normalized dictionary for each raw hit, aborting on a raised exception. -/
def mapNorm : List Hit → Except PyErr (List Hit)
  | [] => .ok []
  | r :: rs =>
    match norm1 r with
    | .error e => .error e
    | .ok y =>
      match mapNorm rs with
      | .error e => .error e
      | .ok ys => .ok (y :: ys)

/-- The second loop of `normalize_research`: de-dup by URL with a `seen`
set (modelled as a list with membership) and an output accumulator. -/
def dedupLoop : List Hit → List PyVal → List Hit → List Hit
  | [], _, acc => acc
  | r :: rs, seen, acc =>
    if r.url ∈ seen then dedupLoop rs seen acc
    else dedupLoop rs (r.url :: seen) (acc ++ [r])

/-- `normalize_research(items)`; the argument is `Option`al because the call
site may hand it `None` (`for r in items or []`). -/
def normalize_research (items : Option (List Hit)) : Except PyErr (List Hit) :=
  match mapNorm (items.getD []) with
  | .error e => .error e
  | .ok out => .ok (dedupLoop out [] [])

/-- Structured restatement of the de-dup loop (output built by `cons`
rather than through an accumulator); proved equal to `dedupLoop` below. -/
def dedupAux : List Hit → List PyVal → List Hit
  | [], _ => []
  | r :: rs, seen =>
    if r.url ∈ seen then dedupAux rs seen
    else r :: dedupAux rs (r.url :: seen)

/-- Fuelled helper for `specDedup`; the fuel is an upper bound on the list
length, so the second equation is never reached from `specDedup`. -/
def specDedupGo : Nat → List Hit → List Hit
  | _, [] => []
  | 0, _ :: _ => []
  | n + 1, r :: rs => r :: specDedupGo n (rs.filter (fun s => s.url ≠ r.url))

/-- The deduplication demanded by the spec's words: keep each list element
whose url has not occurred earlier, preserving order (keep the head, drop
every later item with the same url, recurse). -/
def specDedup (l : List Hit) : List Hit :=
  specDedupGo l.length l

/- ── pydantic models ───────────────────────────────────────────────────
`ClaimJudge(**raw)` and `VerdictOut(**raw)` validate the parsed JSON
object.  Lax pydantic coercions of exotic inputs (e.g. `0`/`1` to bool)
are outside the model: contracts are stated over the canonical JSON types,
which is what the prompts request and what every claim concerns. -/

/-- `class ClaimJudge(BaseModel)`: `is_claim : bool` required,
`reason : str` defaulting to `None`. -/
structure ClaimJudge where
  is_claim : Bool
  reason : Option String
deriving DecidableEq, Repr

/-- Validation of a parsed object against `ClaimJudge`.  The error value is
the `pydantic.ValidationError` message. -/
def validateClaimJudge (fields : List (String × JVal)) : Except String ClaimJudge :=
  match List.lookup "is_claim" fields with
  | Option.none => .error "is_claim: field required"
  | Option.some (JVal.jbool b) =>
    match List.lookup "reason" fields with
    | Option.none => .ok { is_claim := b, reason := Option.none }
    | Option.some (JVal.jstr s) => .ok { is_claim := b, reason := Option.some s }
    | Option.some _ => .error "reason: input should be a valid string"
  | Option.some _ => .error "is_claim: input should be a valid boolean"

/-- `class VerdictOut(BaseModel)`: `verdict` a literal among
`true`/`false`/`unsubstantiated`, `explanation : str` with
`max_length=600`, `citations : List[Dict[str, str]]` defaulting to `[]`.
Each citation is a plain string-to-string dictionary (an association
list), exactly as pydantic stores it. -/
structure VerdictOut where
  verdict : String
  explanation : String
  citations : List (List (String × String))
deriving DecidableEq, Repr

/-- Field validation for `verdict : Literal["true", "false", "unsubstantiated"]`. -/
def vVerdict (fields : List (String × JVal)) : Except String String :=
  match List.lookup "verdict" fields with
  | Option.none => .error "verdict: field required"
  | Option.some (JVal.jstr s) =>
    if s = "true" ∨ s = "false" ∨ s = "unsubstantiated" then .ok s
    else .error "verdict: input should be true, false or unsubstantiated"
  | Option.some _ => .error "verdict: input should be true, false or unsubstantiated"

/-- Field validation for `explanation : str = Field(..., max_length=600)`. -/
def vExplanation (fields : List (String × JVal)) : Except String String :=
  match List.lookup "explanation" fields with
  | Option.none => .error "explanation: field required"
  | Option.some (JVal.jstr s) =>
    if s.length ≤ 600 then .ok s
    else .error "explanation: string should have at most 600 characters"
  | Option.some _ => .error "explanation: input should be a valid string"

/-- One citation entry: pydantic `Dict[str, str]` keeps every key of the
object and requires every value to be a string. -/
def citFields : List (String × JVal) → Except String (List (String × String))
  | [] => .ok []
  | (k, JVal.jstr s) :: rest =>
    match citFields rest with
    | .error e => .error e
    | .ok xs => .ok ((k, s) :: xs)
  | (_, _) :: _ => .error "citations: value should be a valid string"

/-- A citation must itself be a JSON object. -/
def toCitation : JVal → Except String (List (String × String))
  | JVal.jobj fs => citFields fs
  | _ => .error "citations: input should be a valid dictionary"

/-- Validation of the `citations` list. -/
def toCitations : List JVal → Except String (List (List (String × String)))
  | [] => .ok []
  | c :: cs =>
    match toCitation c with
    | .error e => .error e
    | .ok x =>
      match toCitations cs with
      | .error e => .error e
      | .ok xs => .ok (x :: xs)

/-- Field validation for `citations`, defaulting to the empty list when the
field is absent. -/
def vCitations (fields : List (String × JVal)) :
    Except String (List (List (String × String))) :=
  match List.lookup "citations" fields with
  | Option.none => .ok []
  | Option.some (JVal.jarr cs) => toCitations cs
  | Option.some _ => .error "citations: input should be a valid list"

/-- Validation of a parsed object against `VerdictOut` (fields are checked
in declaration order, matching pydantic's reporting order). -/
def validateVerdictOut (fields : List (String × JVal)) : Except String VerdictOut :=
  match vVerdict fields with
  | .error e => .error e
  | .ok v =>
    match vExplanation fields with
    | .error e => .error e
    | .ok ex =>
      match vCitations fields with
      | .error e => .error e
      | .ok cs => .ok { verdict := v, explanation := ex, citations := cs }

/- ── Pipeline state and nodes ─────────────────────────────────────────── -/

/-- `AgentState(TypedDict, total=False)`: every key but `input_text` may be
absent (`Option.none`).  Citation dictionaries are association lists with
`PyVal` values, since the fallback path fills them from normalized hits. -/
structure AgentState where
  input_text : String
  is_claim : Option Bool := Option.none
  claim_reason : Option PyVal := Option.none
  research : Option (List Hit) := Option.none
  verdict : Option String := Option.none
  explanation : Option PyVal := Option.none
  citations : Option (List (List (String × PyVal))) := Option.none
deriving DecidableEq, Repr

/-- The two external collaborators, per invocation: the classification
model call's outcome (the parsed JSON returned by `gemini_json`, or the
exception it raised), the Tavily `results` list (or the exception the
search raised), and the adjudication model call's outcome. -/
structure Oracles where
  classifyRaw : Except PyErr JVal
  tavilyResults : Except PyErr (List Hit)
  assessRaw : Except PyErr JVal

/-- Embed a validated citation dictionary into the state's value type. -/
def strCit (c : List (String × String)) : List (String × PyVal) :=
  c.map (fun kv => (kv.1, PyVal.vstr kv.2))

/-- Node `classify_claim`: call Gemini, validate against `ClaimJudge`
(wrapping a `ValidationError` in a `RuntimeError`), record the decision,
and on `is_claim == False` short-circuit by setting
`verdict = "not_a_claim"` and `explanation = reason`. -/
def classify_claim (o : Oracles) (state : AgentState) : Except PyErr AgentState :=
  match o.classifyRaw with
  | .error e => .error e
  | .ok (JVal.jobj fields) =>
    match validateClaimJudge fields with
    | .error msg =>
      .error (.runtimeError ("classify_claim JSON failed validation: " ++ msg))
    | .ok judged =>
      let s1 := { state with
                  is_claim := Option.some judged.is_claim
                  claim_reason := Option.some (optStr judged.reason) }
      if judged.is_claim then .ok s1
      else .ok { s1 with
                 verdict := Option.some "not_a_claim"
                 explanation := Option.some (optStr judged.reason) }
  | .ok _ => .error (.typeError "argument after ** must be a mapping")

/-- Node `research_with_tavily`: search, normalize, store on the state.  A
search failure propagates; a normalization failure propagates. -/
def research_with_tavily (o : Oracles) (state : AgentState) : Except PyErr AgentState :=
  match o.tavilyResults with
  | .error e => .error e
  | .ok results =>
    match normalize_research (Option.some results) with
    | .error e => .error e
    | .ok normalized => .ok { state with research := Option.some normalized }

/-- Node `assess_claim`: call Gemini, validate against `VerdictOut`
(wrapping a `ValidationError` in a `RuntimeError`), and store the verdict;
`state["citations"] = verdict.citations or [{title, url} for r in research]`. -/
def assess_claim (o : Oracles) (state : AgentState) : Except PyErr AgentState :=
  match o.assessRaw with
  | .error e => .error e
  | .ok (JVal.jobj fields) =>
    match validateVerdictOut fields with
    | .error msg =>
      .error (.runtimeError ("assess_claim JSON failed validation: " ++ msg))
    | .ok v =>
      let cits :=
        if v.citations.isEmpty then
          (state.research.getD []).map
            (fun r => [("title", pyGetD r.title (.vstr "")), ("url", pyGetD r.url (.vstr ""))])
        else v.citations.map strCit
      .ok { state with
            verdict := Option.some v.verdict
            explanation := Option.some (.vstr v.explanation)
            citations := Option.some cits }
  | .ok _ => .error (.typeError "argument after ** must be a mapping")

/-- Node `finalize`: terminal no-op. -/
def finalize (state : AgentState) : AgentState := state

/-- The conditional edge out of `classify_claim`. -/
def route_from_classify (state : AgentState) : String :=
  if state.is_claim.getD false then "research_with_tavily" else "finalize"

/-- One `GRAPH.invoke`: `START → classify_claim`, the conditional edge, the
linear tail `research_with_tavily → assess_claim → finalize → END`.  Nodes
run strictly in sequence; a raised exception aborts the invocation. -/
def runGraph (o : Oracles) (s0 : AgentState) : Except PyErr AgentState :=
  match classify_claim o s0 with
  | .error e => .error e
  | .ok s1 =>
    if route_from_classify s1 = "research_with_tavily" then
      match research_with_tavily o s1 with
      | .error e => .error e
      | .ok s2 =>
        match assess_claim o s2 with
        | .error e => .error e
        | .ok s3 => .ok (finalize s3)
    else .ok (finalize s1)

/-- The two response payload shapes `run_agent` can build. -/
inductive RunResponse where
  | not_a_claim : Option PyVal → RunResponse
  | fact_checked : Option String → Option PyVal →
      Option (List (List (String × PyVal))) → RunResponse
deriving DecidableEq, Repr

/-- `run_agent(text, thread_id)`: seed the state with `input_text`, drive
the graph, and project the terminal state into a response payload. -/
def run_agent (o : Oracles) (text : String) : Except PyErr RunResponse :=
  match runGraph o { input_text := text } with
  | .error e => .error e
  | .ok final =>
    if final.verdict = Option.some "not_a_claim" then
      .ok (.not_a_claim final.explanation)
    else
      .ok (.fact_checked final.verdict final.explanation final.citations)

/-- Whether a pipeline outcome is a raised `pydantic.ValidationError`. -/
def resultIsValidationError {α : Type} : Except PyErr α → Bool
  | .error (.validationError _) => true
  | _ => false

/- ── Concrete scenario inputs ─────────────────────────────────────────── -/

/-- A model-call outcome for stages a scenario never reaches. -/
def unusedCall : Except PyErr JVal := .error (.runtimeError "unused stage")

/-- Scenario: the classifier rejects the text as filler. -/
def oNotClaim : Oracles :=
  { classifyRaw :=
      .ok (JVal.jobj [("is_claim", JVal.jbool false), ("reason", JVal.jstr "filler, no assertion")])
    tavilyResults := .error (.runtimeError "unused stage")
    assessRaw := unusedCall }

/-- A JSON parser that rejects every document, realising the hypothesis
that no attempt's text parses. -/
def rejectAll : String → Option JVal := fun _ => Option.none

/-- A fenced non-JSON model response, identical on every attempt. -/
def fencedResp : Nat → String := fun _ => "```json\nnot json\n```"

/-- A classification response missing the required `is_claim` field. -/
def oBadClassify : Oracles :=
  { classifyRaw := .ok (JVal.jobj [])
    tavilyResults := .error (.runtimeError "unused stage")
    assessRaw := unusedCall }

/-- Three well-formed raw search hits with distinct urls. -/
def hitA : Hit :=
  { title := .vstr "A", url := .vstr "http://a", content := .vstr "alpha", snippet := .vnone }

def hitB : Hit :=
  { title := .vstr "B", url := .vstr "http://b", content := .vnone, snippet := .vstr "beta" }

def hitC : Hit :=
  { title := .vnone, url := .vstr "http://c", content := .vnone, snippet := .vnone }

/-- Scenario: a claim, three research hits, an adjudication that returns an
empty citations list. -/
def oEmptyCitations : Oracles :=
  { classifyRaw :=
      .ok (JVal.jobj [("is_claim", JVal.jbool true), ("reason", JVal.jstr "checkable assertion")])
    tavilyResults := .ok [hitA, hitB, hitC]
    assessRaw :=
      .ok (JVal.jobj
        [("verdict", JVal.jstr "true"),
         ("explanation", JVal.jstr "supported by the research"),
         ("citations", JVal.jarr [])]) }

/-- Scenario: a claim whose adjudication response fails validation
(missing every required field). -/
def oBadAssess : Oracles :=
  { classifyRaw :=
      .ok (JVal.jobj [("is_claim", JVal.jbool true), ("reason", JVal.jstr "checkable assertion")])
    tavilyResults := .ok [hitA]
    assessRaw := .ok (JVal.jobj []) }

/-- A verdict object whose `verdict` is outside the enumeration. -/
def maybeVerdictObj : List (String × JVal) :=
  [("verdict", JVal.jstr "maybe"), ("explanation", JVal.jstr "unsure")]

/-- A verdict object whose single citation carries a field beyond
`title`/`url`. -/
def extraFieldVerdictObj : List (String × JVal) :=
  [("verdict", JVal.jstr "true"),
   ("explanation", JVal.jstr "ok"),
   ("citations", JVal.jarr
     [JVal.jobj [("title", JVal.jstr "A"), ("url", JVal.jstr "http://a"), ("extra", JVal.jstr "x")]])]

/-- A verdict object with no `citations` field at all. -/
def noCitationsVerdictObj : List (String × JVal) :=
  [("verdict", JVal.jstr "false"), ("explanation", JVal.jstr "contradicted")]

/-- Two raw hits sharing a url but not a title, plus an unrelated hit. -/
def dupHitFirst : Hit :=
  { title := .vstr "first title", url := .vstr "http://dup", content := .vstr "one", snippet := .vnone }

def dupHitSecond : Hit :=
  { title := .vstr "second title", url := .vstr "http://dup", content := .vstr "two", snippet := .vnone }

def dupInput : List Hit := [dupHitFirst, dupHitSecond, hitB]

/-- A raw hit whose `content` is a (truthy) integer: slicing it raises. -/
def badContentHit : Hit :=
  { title := .vnone, url := .vnone, content := .vint 1, snippet := .vnone }

/-- Two hits with no url at all, with distinct titles, after a hit that has
a url. -/
def urllessFirst : Hit :=
  { title := .vstr "no url 1", url := .vnone, content := .vstr "c1", snippet := .vnone }

def urllessSecond : Hit :=
  { title := .vstr "no url 2", url := .vstr "", content := .vstr "c2", snippet := .vnone }

def urllessInput : List Hit := [hitA, urllessFirst, urllessSecond]

/- ── Lemmas: the de-dup loop and its specification ────────────────────── -/

theorem dedupLoop_eq_dedupAux (xs : List Hit) :
    ∀ seen acc, dedupLoop xs seen acc = acc ++ dedupAux xs seen := by
  induction xs with
  | nil => intro seen acc; simp [dedupLoop, dedupAux]
  | cons x rest ih =>
    intro seen acc
    by_cases h : x.url ∈ seen
    · simp [dedupLoop, dedupAux, h, ih]
    · simp [dedupLoop, dedupAux, h, ih]

theorem dedupAux_congr :
    ∀ (xs : List Hit) (s₁ s₂ : List PyVal),
      (∀ u, u ∈ s₁ ↔ u ∈ s₂) → dedupAux xs s₁ = dedupAux xs s₂ := by
  intro xs
  induction xs with
  | nil => intro s₁ s₂ _; rfl
  | cons x rest ih =>
    intro s₁ s₂ h
    by_cases hx : x.url ∈ s₁
    · have hx2 : x.url ∈ s₂ := (h _).mp hx
      simp [dedupAux, hx, hx2, ih _ _ h]
    · have hx2 : x.url ∉ s₂ := fun c => hx ((h _).mpr c)
      have hcons : ∀ u, u ∈ x.url :: s₁ ↔ u ∈ x.url :: s₂ := by
        intro u; simp [h u]
      simp [dedupAux, hx, hx2, ih _ _ hcons]

theorem dedupAux_cons_seen :
    ∀ (xs : List Hit) (u : PyVal) (seen : List PyVal),
      dedupAux xs (u :: seen) = dedupAux (xs.filter (fun s => s.url ≠ u)) seen := by
  intro xs
  induction xs with
  | nil => intro u seen; rfl
  | cons x rest ih =>
    intro u seen
    by_cases hxu : x.url = u
    · have hmem : x.url ∈ u :: seen := by simp [hxu]
      simp [dedupAux, hmem, List.filter_cons, hxu, ih]
    · by_cases hxs : x.url ∈ seen
      · have hmem : x.url ∈ u :: seen := List.mem_cons_of_mem _ hxs
        simp [dedupAux, hmem, List.filter_cons, hxu, hxs, ih]
      · have hmem : x.url ∉ u :: seen := by
          simp [List.mem_cons, hxu, hxs]
        have hswap : dedupAux rest (x.url :: u :: seen) = dedupAux rest (u :: x.url :: seen) := by
          apply dedupAux_congr
          intro v; simp [List.mem_cons]; tauto
        simp [dedupAux, hmem, List.filter_cons, hxu, hxs, hswap, ih]

theorem dedupAux_nil_eq_specDedupGo :
    ∀ (m : Nat) (xs : List Hit), xs.length ≤ m → dedupAux xs [] = specDedupGo m xs := by
  intro m
  induction m with
  | zero =>
    intro xs h
    have : xs = [] := List.eq_nil_of_length_eq_zero (Nat.le_zero.mp h)
    subst this; rfl
  | succ n ih =>
    intro xs h
    match xs with
    | [] => rfl
    | x :: rest =>
      have h1 : dedupAux (x :: rest) [] =
          x :: dedupAux (rest.filter (fun s => s.url ≠ x.url)) [] := by
        simp [dedupAux, dedupAux_cons_seen]
      have hlen : (rest.filter (fun s => s.url ≠ x.url)).length ≤ n := by
        have h2 : rest.length ≤ n := by
          simp only [List.length_cons] at h; omega
        exact le_trans (List.length_filter_le _ _) h2
      rw [h1, ih _ hlen]
      rfl

theorem dedupAux_nil_eq_specDedup (xs : List Hit) : dedupAux xs [] = specDedup xs :=
  dedupAux_nil_eq_specDedupGo xs.length xs (le_refl _)

theorem specDedup_cons (x : Hit) (rest : List Hit) :
    specDedup (x :: rest) = x :: specDedup (rest.filter (fun s => s.url ≠ x.url)) := by
  rw [← dedupAux_nil_eq_specDedup, ← dedupAux_nil_eq_specDedup]
  simp [dedupAux, dedupAux_cons_seen]

theorem dedupAux_sublist : ∀ (xs : List Hit) (seen : List PyVal),
    List.Sublist (dedupAux xs seen) xs := by
  intro xs
  induction xs with
  | nil => intro seen; simp [dedupAux]
  | cons x rest ih =>
    intro seen
    by_cases h : x.url ∈ seen
    · simp only [dedupAux, if_pos h]
      exact List.Sublist.cons x (ih seen)
    · simp only [dedupAux, if_neg h]
      exact List.Sublist.cons₂ x (ih _)

theorem dedupAux_url_not_seen : ∀ (xs : List Hit) (seen : List PyVal) (y : Hit),
    y ∈ dedupAux xs seen → y.url ∉ seen := by
  intro xs
  induction xs with
  | nil => intro seen y h; simp [dedupAux] at h
  | cons x rest ih =>
    intro seen y h
    by_cases hx : x.url ∈ seen
    · simp only [dedupAux, if_pos hx] at h
      exact ih seen y h
    · simp only [dedupAux, if_neg hx, List.mem_cons] at h
      rcases h with rfl | h
      · exact hx
      · intro c
        exact (ih _ y h) (List.mem_cons_of_mem _ c)

theorem dedupAux_pairwise : ∀ (xs : List Hit) (seen : List PyVal),
    (dedupAux xs seen).Pairwise (fun a b => a.url ≠ b.url) := by
  intro xs
  induction xs with
  | nil => intro seen; simp [dedupAux]
  | cons x rest ih =>
    intro seen
    by_cases hx : x.url ∈ seen
    · simp only [dedupAux, if_pos hx]
      exact ih seen
    · simp only [dedupAux, if_neg hx, List.pairwise_cons]
      refine ⟨?_, ih _⟩
      intro y hy c
      exact (dedupAux_url_not_seen rest _ y hy) (c ▸ List.mem_cons_self x.url seen)

theorem dedupAux_find : ∀ (xs : List Hit) (seen : List PyVal) (y : Hit),
    y ∈ dedupAux xs seen →
      xs.find? (fun z => decide (z.url = y.url)) = Option.some y := by
  intro xs
  induction xs with
  | nil => intro seen y h; simp [dedupAux] at h
  | cons x rest ih =>
    intro seen y h
    by_cases hx : x.url ∈ seen
    · simp only [dedupAux, if_pos hx] at h
      have hne : x.url ≠ y.url := by
        intro c
        exact (dedupAux_url_not_seen rest seen y h) (c ▸ hx)
      rw [List.find?_cons_of_neg]
      · exact ih seen y h
      · simp [hne]
    · simp only [dedupAux, if_neg hx, List.mem_cons] at h
      rcases h with rfl | h
      · rw [List.find?_cons_of_pos]
        simp
      · have hy := dedupAux_url_not_seen rest _ y h
        have hne : x.url ≠ y.url := by
          intro c
          exact hy (by rw [← c]; exact List.mem_cons_self _ _)
        rw [List.find?_cons_of_neg]
        · exact ih _ y h
        · simp [hne]

theorem dedupAux_complete : ∀ (xs : List Hit) (seen : List PyVal) (z : Hit),
    z ∈ xs → z.url ∉ seen → ∃ y, y ∈ dedupAux xs seen ∧ y.url = z.url := by
  intro xs
  induction xs with
  | nil => intro seen z h; simp at h
  | cons x rest ih =>
    intro seen z hz hzs
    by_cases hx : x.url ∈ seen
    · rcases List.mem_cons.mp hz with rfl | hz'
      · exact absurd hx hzs
      · simp only [dedupAux, if_pos hx]
        exact ih seen z hz' hzs
    · rcases List.mem_cons.mp hz with rfl | hz'
      · exact ⟨z, by simp [dedupAux, hx], rfl⟩
      · by_cases hzu : z.url = x.url
        · exact ⟨x, by simp [dedupAux, hx], hzu.symm⟩
        · have hnot : z.url ∉ x.url :: seen := by simp [List.mem_cons, hzu, hzs]
          obtain ⟨y, hy, hyu⟩ := ih (x.url :: seen) z hz' hnot
          exact ⟨y, by simp [dedupAux, hx, hy], hyu⟩

theorem specDedup_eq_self_of_pairwise :
    ∀ xs : List Hit, xs.Pairwise (fun a b => a.url ≠ b.url) → specDedup xs = xs := by
  intro xs
  induction xs with
  | nil => intro _; rfl
  | cons x rest ih =>
    intro h
    rcases List.pairwise_cons.mp h with ⟨hhead, htail⟩
    rw [specDedup_cons]
    have hfil : rest.filter (fun s => s.url ≠ x.url) = rest := by
      apply List.filter_eq_self.mpr
      intro a ha
      simp only [ne_eq, decide_not, Bool.not_eq_eq_eq_not, Bool.not_true, decide_eq_false_iff_not]
      exact fun c => (hhead a ha) c.symm
    rw [hfil, ih htail]

theorem normalize_research_eq_spec (xs os : List Hit) (h : mapNorm xs = .ok os) :
    normalize_research (Option.some xs) = .ok (specDedup os) := by
  simp [normalize_research, h, dedupLoop_eq_dedupAux, dedupAux_nil_eq_specDedup]

/- ── Lemmas: the per-hit normalization ────────────────────────────────── -/

theorem pyOr_of_truthy {v : PyVal} (w : PyVal) (h : truthy v = true) : pyOr v w = v := by
  simp [pyOr, h]

theorem pyOr_of_falsy {v : PyVal} (w : PyVal) (h : truthy v = false) : pyOr v w = w := by
  simp [pyOr, h]

theorem pyOr_vstr_empty (s : String) : pyOr (.vstr s) (.vstr "") = .vstr s := by
  by_cases h : s = "" <;> simp [pyOr, truthy, h]

theorem truthy_pyOr_title (t : PyVal) :
    truthy (pyOr t (.vstr "(no title)")) = true := by
  by_cases h : truthy t
  · rw [pyOr_of_truthy _ h]; exact h
  · rw [pyOr_of_falsy _ (Bool.eq_false_iff.mpr h)]; decide

theorem pySlice_ok_inv {v w : PyVal} {n : Nat} (h : pySlice v n = .ok w) :
    ∃ s, v = .vstr s ∧ w = .vstr (String.mk (s.data.take n)) := by
  cases v with
  | vstr s => exact ⟨s, rfl, by simpa [pySlice] using h.symm⟩
  | vnone => simp [pySlice] at h
  | vint n => simp [pySlice] at h

theorem norm1_ok_inv {r y : Hit} (h : norm1 r = .ok y) :
    ∃ s, pyOr r.content (pyOr r.snippet (.vstr "")) = .vstr s ∧
      y = { title := pyOr r.title (.vstr "(no title)")
            url := pyOr r.url (.vstr "")
            content := .vnone
            snippet := .vstr (String.mk (s.data.take 600)) } := by
  unfold norm1 at h
  cases hs : pySlice (pyOr r.content (pyOr r.snippet (.vstr ""))) 600 with
  | error e => rw [hs] at h; cases h
  | ok w =>
    rw [hs] at h
    obtain ⟨s, hv, rfl⟩ := pySlice_ok_inv hs
    exact ⟨s, hv, (Except.ok.inj h).symm⟩

theorem norm1_ok_of_str {r : Hit} {s : String}
    (h : pyOr r.content (pyOr r.snippet (.vstr "")) = .vstr s) :
    norm1 r = .ok { title := pyOr r.title (.vstr "(no title)")
                    url := pyOr r.url (.vstr "")
                    content := .vnone
                    snippet := .vstr (String.mk (s.data.take 600)) } := by
  unfold norm1
  rw [h]
  rfl

theorem norm1_idem {x y : Hit} (h : norm1 x = .ok y) : norm1 y = .ok y := by
  obtain ⟨s, hsrc, rfl⟩ := norm1_ok_inv h
  unfold norm1
  have hcontent : pyOr PyVal.vnone
      (pyOr (PyVal.vstr (String.mk (s.data.take 600))) (.vstr "")) =
      .vstr (String.mk (s.data.take 600)) := by
    rw [@pyOr_of_falsy PyVal.vnone _ rfl, pyOr_vstr_empty]
  simp only [hcontent, pySlice]
  have htake : (String.mk (s.data.take 600)).data.take 600 = s.data.take 600 := by
    simp [List.take_take]
  rw [htake]
  have htitle : pyOr (pyOr x.title (.vstr "(no title)")) (.vstr "(no title)") =
      pyOr x.title (.vstr "(no title)") :=
    pyOr_of_truthy _ (truthy_pyOr_title x.title)
  have hurl : pyOr (pyOr x.url (.vstr "")) (.vstr "") = pyOr x.url (.vstr "") := by
    by_cases hu : truthy x.url
    · rw [pyOr_of_truthy _ hu, pyOr_of_truthy _ hu]
    · rw [pyOr_of_falsy _ (Bool.eq_false_iff.mpr hu), pyOr_vstr_empty]
  rw [htitle, hurl]

theorem norm1_url_truthy {g w : Hit} (h : norm1 g = .ok w)
    (ht : truthy g.url = true) : w.url = g.url := by
  obtain ⟨s, _, rfl⟩ := norm1_ok_inv h
  exact pyOr_of_truthy _ ht

theorem norm1_url_falsy {g w : Hit} (h : norm1 g = .ok w)
    (ht : truthy g.url = false) : w.url = .vstr "" := by
  obtain ⟨s, _, rfl⟩ := norm1_ok_inv h
  exact pyOr_of_falsy _ ht

theorem mapNorm_self :
    ∀ l : List Hit, (∀ y ∈ l, norm1 y = .ok y) → mapNorm l = .ok l := by
  intro l
  induction l with
  | nil => intro _; rfl
  | cons x rest ih =>
    intro h
    have hx : norm1 x = .ok x := h x (List.mem_cons_self _ _)
    have hr : mapNorm rest = .ok rest := ih (fun y hy => h y (List.mem_cons_of_mem _ hy))
    simp [mapNorm, hx, hr]

theorem mapNorm_cons_inv {x : Hit} {rest : List Hit} {os : List Hit}
    (h : mapNorm (x :: rest) = .ok os) :
    ∃ y os', norm1 x = .ok y ∧ mapNorm rest = .ok os' ∧ os = y :: os' := by
  unfold mapNorm at h
  cases hx : norm1 x with
  | error e => rw [hx] at h; cases h
  | ok y =>
    rw [hx] at h
    cases hr : mapNorm rest with
    | error e => rw [hr] at h; cases h
    | ok os' =>
      rw [hr] at h
      exact ⟨y, os', rfl, rfl, (Except.ok.inj h).symm⟩

theorem mapNorm_mem :
    ∀ (xs os : List Hit), mapNorm xs = .ok os →
      ∀ y ∈ os, ∃ x, x ∈ xs ∧ norm1 x = .ok y := by
  intro xs
  induction xs with
  | nil =>
    intro os h y hy
    cases h
    simp at hy
  | cons x rest ih =>
    intro os h y hy
    obtain ⟨w, os', hw, hr, rfl⟩ := mapNorm_cons_inv h
    rcases List.mem_cons.mp hy with rfl | hy'
    · exact ⟨x, List.mem_cons_self _ _, hw⟩
    · obtain ⟨g, hg, hgy⟩ := ih os' hr y hy'
      exact ⟨g, List.mem_cons_of_mem _ hg, hgy⟩

theorem mapNorm_forall₂ :
    ∀ (xs os : List Hit), mapNorm xs = .ok os →
      List.Forall₂ (fun x w => norm1 x = .ok w) xs os := by
  intro xs
  induction xs with
  | nil => intro os h; cases h; exact List.Forall₂.nil
  | cons x rest ih =>
    intro os h
    obtain ⟨y, os', hy, hr, rfl⟩ := mapNorm_cons_inv h
    exact List.Forall₂.cons hy (ih os' hr)

theorem mapNorm_append_cons {a b : List Hit} {h : Hit} {os : List Hit}
    (hm : mapNorm (a ++ h :: b) = .ok os) :
    ∃ oa y ob, os = oa ++ y :: ob ∧ mapNorm a = .ok oa ∧ norm1 h = .ok y ∧
      mapNorm b = .ok ob ∧ List.Forall₂ (fun x w => norm1 x = .ok w) a oa := by
  induction a generalizing os with
  | nil =>
    obtain ⟨y, os', hy, hr, rfl⟩ := mapNorm_cons_inv hm
    exact ⟨[], y, os', rfl, rfl, hy, hr, List.Forall₂.nil⟩
  | cons x rest ih =>
    obtain ⟨w, os', hw, hr, rfl⟩ := mapNorm_cons_inv hm
    obtain ⟨oa, y, ob, rfl, hma, hy, hmb, hf⟩ := ih hr
    exact ⟨w :: oa, y, ob, rfl, by simp [mapNorm, hw, hma], hy, hmb,
      List.Forall₂.cons hw hf⟩

theorem mapNorm_ok_of_str :
    ∀ xs : List Hit,
      (∀ r ∈ xs, ∃ s, pyOr r.content (pyOr r.snippet (.vstr "")) = .vstr s) →
      ∃ os, mapNorm xs = .ok os := by
  intro xs
  induction xs with
  | nil => intro _; exact ⟨[], rfl⟩
  | cons x rest ih =>
    intro h
    obtain ⟨s, hs⟩ := h x (List.mem_cons_self _ _)
    obtain ⟨os, hos⟩ := ih (fun r hr => h r (List.mem_cons_of_mem _ hr))
    refine ⟨{ title := pyOr x.title (.vstr "(no title)")
              url := pyOr x.url (.vstr "")
              content := .vnone
              snippet := .vstr (String.mk (s.data.take 600)) } :: os, ?_⟩
    simp [mapNorm, norm1_ok_of_str hs, hos]

theorem forall₂_mem_right {α β : Type} {R : α → β → Prop} :
    ∀ {l₁ : List α} {l₂ : List β}, List.Forall₂ R l₁ l₂ →
      ∀ y ∈ l₂, ∃ x, x ∈ l₁ ∧ R x y := by
  intro l₁ l₂ h
  induction h with
  | nil => intro y hy; simp at hy
  | cons hr _ ih =>
    intro y hy
    rcases List.mem_cons.mp hy with rfl | hy'
    · exact ⟨_, List.mem_cons_self _ _, hr⟩
    · obtain ⟨x, hx, hxy⟩ := ih y hy'
      exact ⟨x, List.mem_cons_of_mem _ hx, hxy⟩

theorem find?_middle {α : Type} {p : α → Bool} :
    ∀ (oa : List α) (y : α) (ob : List α),
      (∀ x ∈ oa, p x = false) → p y = true →
      (oa ++ y :: ob).find? p = Option.some y := by
  intro oa y ob hoa hy
  induction oa with
  | nil =>
    rw [List.nil_append]
    exact List.find?_cons_of_pos _ hy
  | cons x rest ih =>
    have hx : p x = false := hoa x (List.mem_cons_self _ _)
    rw [List.cons_append, List.find?_cons_of_neg]
    · exact ih (fun g hg => hoa g (List.mem_cons_of_mem _ hg))
    · simp [hx]

/- ── Lemmas: validators and the model-call loop ───────────────────────── -/

theorem validateVerdictOut_ok_inv {fields : List (String × JVal)} {v : VerdictOut}
    (h : validateVerdictOut fields = .ok v) :
    vVerdict fields = .ok v.verdict ∧ vExplanation fields = .ok v.explanation ∧
      vCitations fields = .ok v.citations := by
  unfold validateVerdictOut at h
  cases h1 : vVerdict fields with
  | error e => rw [h1] at h; cases h
  | ok s =>
    rw [h1] at h
    cases h2 : vExplanation fields with
    | error e => rw [h2] at h; cases h
    | ok ex =>
      rw [h2] at h
      cases h3 : vCitations fields with
      | error e => rw [h3] at h; cases h
      | ok cs =>
        rw [h3] at h
        have hv := Except.ok.inj h
        subst hv
        exact ⟨rfl, rfl, rfl⟩

theorem vVerdict_ok_enum {fields : List (String × JVal)} {s : String}
    (h : vVerdict fields = .ok s) :
    s = "true" ∨ s = "false" ∨ s = "unsubstantiated" := by
  unfold vVerdict at h
  split at h
  · cases h
  · split at h
    · rename_i hc
      have hv := Except.ok.inj h
      subst hv
      exact hc
    · cases h
  · cases h

theorem validateVerdictOut_verdict_enum {fields : List (String × JVal)} {v : VerdictOut}
    (h : validateVerdictOut fields = .ok v) :
    v.verdict = "true" ∨ v.verdict = "false" ∨ v.verdict = "unsubstantiated" :=
  vVerdict_ok_enum (validateVerdictOut_ok_inv h).1

theorem gemini_json_go_all_fail (parse : String → Option JVal) (responses : Nat → String) :
    ∀ (remaining attempt : Nat),
      (∀ i, attempt ≤ i → i ≤ attempt + remaining →
        parse (cleanText (responses i)) = Option.none) →
      gemini_json_go parse responses attempt remaining =
        .error (.jsonDecodeError (cleanText (responses (attempt + remaining)))) := by
  intro remaining
  induction remaining with
  | zero =>
    intro attempt h
    have h0 := h attempt (le_refl _) (Nat.le_add_right _ _)
    simp [gemini_json_go, h0]
  | succ k ih =>
    intro attempt h
    have h0 := h attempt (le_refl _) (Nat.le_add_right _ _)
    simp only [gemini_json_go, h0]
    have hrec := ih (attempt + 1) (fun i h1 h2 => h i (by omega) (by omega))
    rw [hrec]
    have harith : attempt + 1 + k = attempt + (k + 1) := by omega
    rw [harith]

theorem normalize_research_ok_inv (xs ys : List Hit)
    (h : normalize_research (Option.some xs) = .ok ys) :
    ∃ os, mapNorm xs = .ok os ∧ ys = specDedup os := by
  unfold normalize_research at h
  simp only [Option.getD_some] at h
  cases hm : mapNorm xs with
  | error e => rw [hm] at h; cases h
  | ok os =>
    rw [hm] at h
    refine ⟨os, rfl, ?_⟩
    have hd : dedupLoop os [] [] = dedupAux os [] := by
      simpa using dedupLoop_eq_dedupAux os [] []
    have := Except.ok.inj h
    rw [← this, hd, dedupAux_nil_eq_specDedup]

/- ── Claim theorems ───────────────────────────────────────────────────── -/

/-- C1: whenever the classification stage yields `is_claim = false`, the
pipeline short-circuits past the research and assess stages: the runner's
response is `not_a_claim` with the classification reason, and the terminal
state's `research` and `citations` fields are never populated. -/
theorem C1_not_a_claim_short_circuit (o : Oracles) (text : String)
    (fields : List (String × JVal)) (j : ClaimJudge)
    (hraw : o.classifyRaw = .ok (JVal.jobj fields))
    (hval : validateClaimJudge fields = .ok j)
    (hfalse : j.is_claim = false) :
    run_agent o text = .ok (.not_a_claim (Option.some (optStr j.reason))) ∧
    ∃ final, runGraph o { input_text := text } = .ok final ∧
      final.research = Option.none ∧ final.citations = Option.none := by
  have hclass : classify_claim o { input_text := text } =
      .ok { input_text := text
            is_claim := Option.some false
            claim_reason := Option.some (optStr j.reason)
            verdict := Option.some "not_a_claim"
            explanation := Option.some (optStr j.reason) } := by
    simp [classify_claim, hraw, hval, hfalse]
  have hgraph : runGraph o { input_text := text } =
      .ok { input_text := text
            is_claim := Option.some false
            claim_reason := Option.some (optStr j.reason)
            verdict := Option.some "not_a_claim"
            explanation := Option.some (optStr j.reason) } := by
    have hne : route_from_classify
        { input_text := text
          is_claim := Option.some false
          claim_reason := Option.some (optStr j.reason)
          verdict := Option.some "not_a_claim"
          explanation := Option.some (optStr j.reason) } ≠ "research_with_tavily" := by
      simp [route_from_classify]
    simp [runGraph, hclass, hne, finalize]
  refine ⟨?_, _, hgraph, rfl, rfl⟩
  simp [run_agent, hgraph]

/-- C1 witness: the filler scenario. -/
theorem C1_witness :
    run_agent oNotClaim "Let me see how we say that." =
      .ok (.not_a_claim (Option.some (.vstr "filler, no assertion"))) ∧
    ∃ final, runGraph oNotClaim { input_text := "Let me see how we say that." } = .ok final ∧
      final.research = Option.none ∧ final.citations = Option.none :=
  C1_not_a_claim_short_circuit oNotClaim "Let me see how we say that."
    [("is_claim", JVal.jbool false), ("reason", JVal.jstr "filler, no assertion")]
    { is_claim := false, reason := Option.some "filler, no assertion" } rfl rfl rfl

/-- C2 counterexample: the claim, as stated, says that when every attempt
fails to parse the error carries the raw response text; on a code-fenced
response the re-raised `json.JSONDecodeError` carries the fence-stripped
document, not the raw response. -/
theorem C2_counterexample :
    gemini_json rejectAll fencedResp 2 = .error (.jsonDecodeError "not json") ∧
    gemini_json rejectAll fencedResp 2 ≠ .error (.jsonDecodeError (fencedResp 2)) := by
  have h1 : gemini_json rejectAll fencedResp 2 =
      .error (.jsonDecodeError "not json") := rfl
  refine ⟨h1, ?_⟩
  intro hcontra
  rw [h1] at hcontra
  exact absurd (PyErr.jsonDecodeError.inj (Except.error.inj hcontra)) (by decide)

/-- C2 (amended): when every attempt's text fails JSON parsing after
whitespace-trimming and code-fence stripping, `gemini_json` exhausts its
retry budget (attempts 0 through `retries`) and fails with the JSON-decode
error of the final attempt, carrying that attempt's trimmed and
fence-stripped response text for diagnostics. -/
theorem C2_exhausts_retries (parse : String → Option JVal) (responses : Nat → String)
    (retries : Nat)
    (h : ∀ i, i ≤ retries → parse (cleanText (responses i)) = Option.none) :
    gemini_json parse responses retries =
      .error (.jsonDecodeError (cleanText (responses retries))) := by
  unfold gemini_json
  have hgo := gemini_json_go_all_fail parse responses retries 0
    (fun i _ h2 => h i (by omega))
  simpa using hgo

/-- C2 witness: three fenced non-JSON responses exhaust the default retry
budget of 2. -/
theorem C2_witness :
    gemini_json rejectAll fencedResp 2 =
      .error (.jsonDecodeError (cleanText (fencedResp 2))) :=
  C2_exhausts_retries rejectAll fencedResp 2 (fun _ _ => rfl)

/-- C3 counterexample: on a classification response that fails schema
validation, the raised error is a `RuntimeError` wrapping the validation
message, not the `ValidationError` itself, so the `ValidationError` does
not propagate unmodified. -/
theorem C3_counterexample :
    run_agent oBadClassify "The sky is blue." =
      .error (.runtimeError "classify_claim JSON failed validation: is_claim: field required") ∧
    resultIsValidationError (run_agent oBadClassify "The sky is blue.") = false :=
  ⟨rfl, rfl⟩

/-- C3 (amended): whenever schema validation of a parsed model response
fails (in the classification or the assessment stage), the failure
propagates to the invocation's caller as a `RuntimeError` wrapping the
validation message — the pipeline performs no masking and fabricates no
fallback verdict, but the `ValidationError` is re-raised wrapped, not
unmodified. -/
theorem C3_validation_failure_propagates :
    (∀ (o : Oracles) (text : String) (fields : List (String × JVal)) (msg : String),
      o.classifyRaw = .ok (JVal.jobj fields) →
      validateClaimJudge fields = .error msg →
      run_agent o text =
        .error (.runtimeError ("classify_claim JSON failed validation: " ++ msg))) ∧
    (∀ (o : Oracles) (text : String) (cf : List (String × JVal)) (j : ClaimJudge)
       (rs ns : List Hit) (af : List (String × JVal)) (msg : String),
      o.classifyRaw = .ok (JVal.jobj cf) →
      validateClaimJudge cf = .ok j →
      j.is_claim = true →
      o.tavilyResults = .ok rs →
      normalize_research (Option.some rs) = .ok ns →
      o.assessRaw = .ok (JVal.jobj af) →
      validateVerdictOut af = .error msg →
      run_agent o text =
        .error (.runtimeError ("assess_claim JSON failed validation: " ++ msg))) := by
  constructor
  · intro o text fields msg hraw hval
    simp [run_agent, runGraph, classify_claim, hraw, hval]
  · intro o text cf j rs ns af msg hraw hval htrue htav hnorm hass hvout
    have hclass : classify_claim o { input_text := text } =
        .ok { input_text := text
              is_claim := Option.some true
              claim_reason := Option.some (optStr j.reason) } := by
      simp [classify_claim, hraw, hval, htrue]
    have hroute : route_from_classify
        { input_text := text
          is_claim := Option.some true
          claim_reason := Option.some (optStr j.reason) } = "research_with_tavily" := by
      simp [route_from_classify]
    simp [run_agent, runGraph, hclass, hroute, research_with_tavily, htav, hnorm,
      assess_claim, hass, hvout]

/-- C3 witness: concrete invalid classification and adjudication objects. -/
theorem C3_witness :
    run_agent oBadClassify "The sky is blue." =
      .error (.runtimeError ("classify_claim JSON failed validation: " ++ "is_claim: field required")) ∧
    run_agent oBadAssess "The sky is blue." =
      .error (.runtimeError ("assess_claim JSON failed validation: " ++ "verdict: field required")) := by
  constructor
  · exact C3_validation_failure_propagates.1 oBadClassify "The sky is blue."
      [] "is_claim: field required" rfl rfl
  · exact C3_validation_failure_propagates.2 oBadAssess "The sky is blue."
      [("is_claim", JVal.jbool true), ("reason", JVal.jstr "checkable assertion")]
      { is_claim := true, reason := Option.some "checkable assertion" }
      [hitA]
      [{ title := .vstr "A", url := .vstr "http://a", content := .vnone, snippet := .vstr "alpha" }]
      [] "verdict: field required" rfl rfl rfl rfl rfl rfl rfl

/-- C4: validating a parsed verdict object whose `verdict` field is a
string outside the enumeration (`true`, `false`, `unsubstantiated`) fails
with a `ValidationError`. -/
theorem C4_verdict_out_of_enumeration (fields : List (String × JVal)) (s : String)
    (hlook : List.lookup "verdict" fields = Option.some (JVal.jstr s))
    (h1 : s ≠ "true") (h2 : s ≠ "false") (h3 : s ≠ "unsubstantiated") :
    validateVerdictOut fields =
      .error "verdict: input should be true, false or unsubstantiated" := by
  have hcond : ¬ (s = "true" ∨ s = "false" ∨ s = "unsubstantiated") := by tauto
  have hv : vVerdict fields =
      .error "verdict: input should be true, false or unsubstantiated" := by
    unfold vVerdict
    simp only [hlook]
    rw [if_neg hcond]
  unfold validateVerdictOut
  rw [hv]

/-- C4 witness: `verdict = "maybe"` is rejected. -/
theorem C4_witness :
    List.lookup "verdict" maybeVerdictObj = Option.some (JVal.jstr "maybe") ∧
    validateVerdictOut maybeVerdictObj =
      .error "verdict: input should be true, false or unsubstantiated" :=
  ⟨rfl, C4_verdict_out_of_enumeration maybeVerdictObj "maybe" rfl
    (by decide) (by decide) (by decide)⟩

/-- C5: when the adjudication model returns `citations = []` and the
research list is non-empty, the final response's citations equal exactly
the research items' title/url pairs, in the research list's original
order. -/
theorem C5_citations_fallback (o : Oracles) (text : String)
    (cf : List (String × JVal)) (j : ClaimJudge) (rs ns : List Hit)
    (af : List (String × JVal)) (v : VerdictOut)
    (hraw : o.classifyRaw = .ok (JVal.jobj cf))
    (hval : validateClaimJudge cf = .ok j)
    (htrue : j.is_claim = true)
    (htav : o.tavilyResults = .ok rs)
    (hnorm : normalize_research (Option.some rs) = .ok ns)
    (hass : o.assessRaw = .ok (JVal.jobj af))
    (hvout : validateVerdictOut af = .ok v)
    (hemp : v.citations = [])
    (_hnonempty : ns ≠ []) :
    run_agent o text = .ok (.fact_checked (Option.some v.verdict)
      (Option.some (.vstr v.explanation))
      (Option.some (ns.map (fun r =>
        [("title", pyGetD r.title (.vstr "")), ("url", pyGetD r.url (.vstr ""))])))) := by
  have hclass : classify_claim o { input_text := text } =
      .ok { input_text := text
            is_claim := Option.some true
            claim_reason := Option.some (optStr j.reason) } := by
    simp [classify_claim, hraw, hval, htrue]
  have hroute : route_from_classify
      { input_text := text
        is_claim := Option.some true
        claim_reason := Option.some (optStr j.reason) } = "research_with_tavily" := by
    simp [route_from_classify]
  have hverdict : Option.some v.verdict ≠ Option.some "not_a_claim" := by
    rcases validateVerdictOut_verdict_enum hvout with h | h | h <;> simp [h]
  simp [run_agent, runGraph, hclass, hroute, research_with_tavily, htav, hnorm,
    assess_claim, hass, hvout, hemp, finalize, hverdict]

/-- C5 witness: three research hits and an empty citations list from the
adjudicator synthesise three title/url citations in research order. -/
theorem C5_witness :
    run_agent oEmptyCitations "The sky is blue." =
      .ok (.fact_checked (Option.some "true")
        (Option.some (.vstr "supported by the research"))
        (Option.some
          [[("title", .vstr "A"), ("url", .vstr "http://a")],
           [("title", .vstr "B"), ("url", .vstr "http://b")],
           [("title", .vstr "(no title)"), ("url", .vstr "http://c")]])) :=
  C5_citations_fallback oEmptyCitations "The sky is blue."
    [("is_claim", JVal.jbool true), ("reason", JVal.jstr "checkable assertion")]
    { is_claim := true, reason := Option.some "checkable assertion" }
    [hitA, hitB, hitC]
    [{ title := .vstr "A", url := .vstr "http://a", content := .vnone, snippet := .vstr "alpha" },
     { title := .vstr "B", url := .vstr "http://b", content := .vnone, snippet := .vstr "beta" },
     { title := .vstr "(no title)", url := .vstr "http://c", content := .vnone, snippet := .vstr "" }]
    [("verdict", JVal.jstr "true"),
     ("explanation", JVal.jstr "supported by the research"),
     ("citations", JVal.jarr [])]
    { verdict := "true", explanation := "supported by the research", citations := [] }
    rfl rfl rfl rfl rfl rfl rfl rfl (by decide)

/-- C6: the evidence normalizer is idempotent — normalizing an
already-normalized list returns it unchanged. -/
theorem C6_normalize_idempotent (xs ys : List Hit)
    (h : normalize_research (Option.some xs) = .ok ys) :
    normalize_research (Option.some ys) = .ok ys := by
  obtain ⟨os, hm, rfl⟩ := normalize_research_ok_inv xs ys h
  have hall : ∀ y ∈ specDedup os, norm1 y = .ok y := by
    intro y hy
    rw [← dedupAux_nil_eq_specDedup] at hy
    have hos : y ∈ os := (dedupAux_sublist os []).subset hy
    obtain ⟨x, _, hxy⟩ := mapNorm_mem xs os hm y hos
    exact norm1_idem hxy
  have hmap : mapNorm (specDedup os) = .ok (specDedup os) := mapNorm_self _ hall
  have hpar : (specDedup os).Pairwise (fun a b => a.url ≠ b.url) := by
    rw [← dedupAux_nil_eq_specDedup]
    exact dedupAux_pairwise os []
  have hres := normalize_research_eq_spec (specDedup os) (specDedup os) hmap
  rw [specDedup_eq_self_of_pairwise _ hpar] at hres
  exact hres

/-- C6 witness: re-normalizing the normalization of a list with a
duplicated url returns it unchanged. -/
theorem C6_witness :
    normalize_research (Option.some
      [{ title := .vstr "first title", url := .vstr "http://dup",
         content := .vnone, snippet := .vstr "one" },
       { title := .vstr "B", url := .vstr "http://b",
         content := .vnone, snippet := .vstr "beta" }]) =
      .ok [{ title := .vstr "first title", url := .vstr "http://dup",
             content := .vnone, snippet := .vstr "one" },
           { title := .vstr "B", url := .vstr "http://b",
             content := .vnone, snippet := .vstr "beta" }] :=
  C6_normalize_idempotent dupInput _ rfl

/-- C7: the normalizer deduplicates by exact url match — the output is a
subsequence of the mapped hits (input order preserved), its urls are
pairwise distinct, every survivor is the first mapped item bearing its
url, and every url of the mapped list is represented. -/
theorem C7_dedup_first_occurrence (xs os : List Hit) (h : mapNorm xs = .ok os) :
    ∃ ys, normalize_research (Option.some xs) = .ok ys ∧
      List.Sublist ys os ∧
      ys.Pairwise (fun a b => a.url ≠ b.url) ∧
      (∀ y ∈ ys, os.find? (fun z => decide (z.url = y.url)) = Option.some y) ∧
      (∀ z ∈ os, ∃ y, y ∈ ys ∧ y.url = z.url) := by
  refine ⟨specDedup os, normalize_research_eq_spec xs os h, ?_, ?_, ?_, ?_⟩ <;>
    rw [← dedupAux_nil_eq_specDedup]
  · exact dedupAux_sublist os []
  · exact dedupAux_pairwise os []
  · intro y hy
    exact dedupAux_find os [] y hy
  · intro z hz
    exact dedupAux_complete os [] z hz (by simp)

/-- C7 witness: two raw items with the same url but different titles;
exactly the first survives, before the later distinct-url hit. -/
theorem C7_witness :
    ∃ ys, normalize_research (Option.some dupInput) = .ok ys ∧
      List.Sublist ys
        [{ title := .vstr "first title", url := .vstr "http://dup",
           content := .vnone, snippet := .vstr "one" },
         { title := .vstr "second title", url := .vstr "http://dup",
           content := .vnone, snippet := .vstr "two" },
         { title := .vstr "B", url := .vstr "http://b",
           content := .vnone, snippet := .vstr "beta" }] ∧
      ys.Pairwise (fun a b => a.url ≠ b.url) ∧
      (∀ y ∈ ys,
        List.find? (fun z => decide (z.url = y.url))
          [{ title := .vstr "first title", url := .vstr "http://dup",
             content := .vnone, snippet := .vstr "one" },
           { title := .vstr "second title", url := .vstr "http://dup",
             content := .vnone, snippet := .vstr "two" },
           { title := .vstr "B", url := .vstr "http://b",
             content := .vnone, snippet := .vstr "beta" }] = Option.some y) ∧
      (∀ z ∈
        ([{ title := .vstr "first title", url := .vstr "http://dup",
            content := .vnone, snippet := .vstr "one" },
          { title := .vstr "second title", url := .vstr "http://dup",
            content := .vnone, snippet := .vstr "two" },
          { title := .vstr "B", url := .vstr "http://b",
            content := .vnone, snippet := .vstr "beta" }] : List Hit),
        ∃ y, y ∈ ys ∧ y.url = z.url) :=
  C7_dedup_first_occurrence dupInput
    [{ title := .vstr "first title", url := .vstr "http://dup",
       content := .vnone, snippet := .vstr "one" },
     { title := .vstr "second title", url := .vstr "http://dup",
       content := .vnone, snippet := .vstr "two" },
     { title := .vstr "B", url := .vstr "http://b",
       content := .vnone, snippet := .vstr "beta" }] rfl

/-- C8 counterexample: a hit whose `content` field is a truthy non-string
(the integer 1) makes the normalizer raise a `TypeError` from slicing, so
the normalizer does not return without error on every input with malformed
fields. -/
theorem C8_counterexample :
    normalize_research (Option.some [badContentHit]) =
      .error (.typeError "object is not subscriptable") := rfl

/-- C8 (amended): for a `None` results list the normalizer returns `[]`,
and for every input list whose hits' effective snippet source
(`content or snippet or ""`) is a string — in particular whenever fields
are absent, `None`, or strings — it returns without error, mapping each
raw hit to title `rawTitle or "(no title)"`, url `rawUrl or ""`, and
snippet the first 600 characters of the snippet source, so every output
snippet has length at most 600; a truthy non-string snippet source instead
raises a `TypeError`. -/
theorem C8_safe_defaults (xs : List Hit)
    (hstr : ∀ r ∈ xs, ∃ s, pyOr r.content (pyOr r.snippet (.vstr "")) = .vstr s) :
    normalize_research Option.none = .ok [] ∧
    ∃ os, mapNorm xs = .ok os ∧
      normalize_research (Option.some xs) = .ok (specDedup os) ∧
      List.Forall₂ (fun r o =>
        o.title = pyOr r.title (.vstr "(no title)") ∧
        o.url = pyOr r.url (.vstr "") ∧
        ∃ s, pyOr r.content (pyOr r.snippet (.vstr "")) = .vstr s ∧
          o.snippet = .vstr (String.mk (s.data.take 600))) xs os ∧
      (∀ o ∈ os, ∃ t, o.snippet = .vstr t ∧ t.length ≤ 600) := by
  obtain ⟨os, hos⟩ := mapNorm_ok_of_str xs hstr
  refine ⟨rfl, os, hos, normalize_research_eq_spec xs os hos, ?_, ?_⟩
  · have hf := mapNorm_forall₂ xs os hos
    refine List.Forall₂.imp ?_ hf
    intro r o hro
    obtain ⟨s, hs, rfl⟩ := norm1_ok_inv hro
    exact ⟨rfl, rfl, s, hs, rfl⟩
  · intro o ho
    obtain ⟨x, _, hxo⟩ := mapNorm_mem xs os hos o ho
    obtain ⟨s, _, rfl⟩ := norm1_ok_inv hxo
    refine ⟨String.mk (s.data.take 600), rfl, ?_⟩
    have hlen : (String.mk (s.data.take 600)).length = (s.data.take 600).length := rfl
    rw [hlen, List.length_take]
    exact Nat.min_le_left _ _

/-- C8 witness: a hit with every field present and a hit with every field
absent both normalize safely. -/
theorem C8_witness :
    normalize_research Option.none = .ok [] ∧
    ∃ os, mapNorm [hitA, hitC] = .ok os ∧
      normalize_research (Option.some [hitA, hitC]) = .ok (specDedup os) ∧
      List.Forall₂ (fun r o =>
        o.title = pyOr r.title (.vstr "(no title)") ∧
        o.url = pyOr r.url (.vstr "") ∧
        ∃ s, pyOr r.content (pyOr r.snippet (.vstr "")) = .vstr s ∧
          o.snippet = .vstr (String.mk (s.data.take 600))) [hitA, hitC] os ∧
      (∀ o ∈ os, ∃ t, o.snippet = .vstr t ∧ t.length ≤ 600) := by
  refine C8_safe_defaults [hitA, hitC] ?_
  intro r hr
  rcases List.mem_cons.mp hr with rfl | hr'
  · exact ⟨"alpha", rfl⟩
  · rcases List.mem_cons.mp hr' with rfl | hr''
    · exact ⟨"", rfl⟩
    · simp at hr''

/-- C9 counterexample: a citation carrying a field beyond `title`/`url`
validates successfully and keeps the extra field — citations are stored as
plain string dictionaries, not coerced to exactly the title/url shape. -/
theorem C9_counterexample :
    validateVerdictOut extraFieldVerdictObj =
      .ok { verdict := "true", explanation := "ok",
            citations := [[("title", "A"), ("url", "http://a"), ("extra", "x")]] } ∧
    validateVerdictOut extraFieldVerdictObj ≠
      .ok { verdict := "true", explanation := "ok",
            citations := [[("title", "A"), ("url", "http://a")]] } := by
  have h1 : validateVerdictOut extraFieldVerdictObj =
      .ok { verdict := "true", explanation := "ok",
            citations := [[("title", "A"), ("url", "http://a"), ("extra", "x")]] } := rfl
  refine ⟨h1, ?_⟩
  intro hcontra
  rw [h1] at hcontra
  exact absurd (congrArg VerdictOut.citations (Except.ok.inj hcontra)) (by decide)

/-- C9 (amended): when a parsed verdict object validates against the
verdict contract, an absent `citations` field defaults to the empty list,
and each present citation must be a string-valued object and is kept in
full — every field retained in order, with no coercion to exactly the
title/url shape. -/
theorem C9_citations_default_and_kept :
    (∀ (fields : List (String × JVal)) (v : VerdictOut),
      validateVerdictOut fields = .ok v →
      List.lookup "citations" fields = Option.none → v.citations = []) ∧
    (∀ (fields : List (String × JVal)) (v : VerdictOut) (cs : List JVal)
       (cits : List (List (String × String))),
      validateVerdictOut fields = .ok v →
      List.lookup "citations" fields = Option.some (JVal.jarr cs) →
      toCitations cs = .ok cits → v.citations = cits) := by
  constructor
  · intro fields v h hl
    have h3 := (validateVerdictOut_ok_inv h).2.2
    unfold vCitations at h3
    rw [hl] at h3
    exact (Except.ok.inj h3).symm
  · intro fields v cs cits h hl htoc
    have h3 := (validateVerdictOut_ok_inv h).2.2
    unfold vCitations at h3
    rw [hl] at h3
    have h4 : toCitations cs = .ok v.citations := h3
    rw [htoc] at h4
    exact (Except.ok.inj h4).symm

/-- C9 witness: an object without `citations` validates to the empty list;
an object whose citation has an extra field validates to the dictionary
with the extra field retained. -/
theorem C9_witness :
    ∃ v : VerdictOut, validateVerdictOut noCitationsVerdictObj = .ok v ∧ v.citations = [] ∧
      ∃ w : VerdictOut, validateVerdictOut extraFieldVerdictObj = .ok w ∧
        w.citations = [[("title", "A"), ("url", "http://a"), ("extra", "x")]] := by
  refine ⟨{ verdict := "false", explanation := "contradicted", citations := [] }, rfl,
    C9_citations_default_and_kept.1 noCitationsVerdictObj _ rfl rfl,
    { verdict := "true", explanation := "ok",
      citations := [[("title", "A"), ("url", "http://a"), ("extra", "x")]] }, rfl,
    C9_citations_default_and_kept.2 extraFieldVerdictObj _
      [JVal.jobj [("title", JVal.jstr "A"), ("url", JVal.jstr "http://a"),
                  ("extra", JVal.jstr "x")]]
      [[("title", "A"), ("url", "http://a"), ("extra", "x")]] rfl rfl rfl⟩

/-- C10: hits whose url is absent or empty all normalize to url `""` and
are deduplicated against each other like any shared url — whenever the
input splits as `a ++ h :: b` with every hit of `a` having a truthy url
and `h` a falsy one (so `h` is the first url-less hit), the output
contains exactly one url-less item, namely the normalization of `h`; any
url-less hits of `b` are collapsed into it. -/
theorem C10_urlless_hits_collapse (xs a b : List Hit) (h : Hit) (ys : List Hit)
    (hn : normalize_research (Option.some xs) = .ok ys)
    (hsplit : xs = a ++ h :: b)
    (hpre : ∀ g ∈ a, truthy g.url = true)
    (hfalsy : truthy h.url = false) :
    ∃ y, norm1 h = .ok y ∧ y.url = .vstr "" ∧ y ∈ ys ∧
      ∀ z ∈ ys, z.url = .vstr "" → z = y := by
  subst hsplit
  obtain ⟨os, hm, rfl⟩ := normalize_research_ok_inv _ _ hn
  obtain ⟨oa, y, ob, rfl, hma, hy, hmb, hf⟩ := mapNorm_append_cons hm
  have hyurl : y.url = .vstr "" := norm1_url_falsy hy hfalsy
  have hoa : ∀ w ∈ oa, (fun z => decide (z.url = PyVal.vstr "")) w = false := by
    intro w hw
    obtain ⟨g, hg, hgw⟩ := forall₂_mem_right hf w hw
    have hgt := hpre g hg
    have hwurl := norm1_url_truthy hgw hgt
    simp only [decide_eq_false_iff_not, hwurl]
    intro c
    rw [c] at hgt
    exact absurd hgt (by decide)
  have hfind : (oa ++ y :: ob).find? (fun z => decide (z.url = PyVal.vstr "")) =
      Option.some y := find?_middle oa y ob hoa (by simp [hyurl])
  rw [← dedupAux_nil_eq_specDedup]
  have hmem : y ∈ oa ++ y :: ob := by simp
  obtain ⟨y', hy', hy'u⟩ := dedupAux_complete (oa ++ y :: ob) [] y hmem (by simp)
  have hy'find := dedupAux_find (oa ++ y :: ob) [] y' hy'
  rw [hy'u, hyurl] at hy'find
  have hyy : y' = y := Option.some.inj (hy'find.symm.trans hfind)
  subst hyy
  refine ⟨y', hy, hyurl, hy', ?_⟩
  intro z hz hzurl
  have hzfind := dedupAux_find (oa ++ y' :: ob) [] z hz
  rw [hzurl] at hzfind
  exact Option.some.inj (hzfind.symm.trans hfind)

/-- C10 witness: of two url-less hits (one with the key absent, one with
the empty string), only the first appears in the output. -/
theorem C10_witness :
    ∃ y, norm1 urllessFirst = .ok y ∧ y.url = .vstr "" ∧
      y ∈ [{ title := .vstr "A", url := .vstr "http://a",
             content := .vnone, snippet := .vstr "alpha" },
           { title := .vstr "no url 1", url := .vstr "",
             content := .vnone, snippet := .vstr "c1" }] ∧
      ∀ z ∈ ([{ title := .vstr "A", url := .vstr "http://a",
                content := .vnone, snippet := .vstr "alpha" },
              { title := .vstr "no url 1", url := .vstr "",
                content := .vnone, snippet := .vstr "c1" }] : List Hit),
        z.url = .vstr "" → z = y :=
  C10_urlless_hits_collapse urllessInput [hitA] [urllessSecond] urllessFirst
    [{ title := .vstr "A", url := .vstr "http://a",
       content := .vnone, snippet := .vstr "alpha" },
     { title := .vstr "no url 1", url := .vstr "",
       content := .vnone, snippet := .vstr "c1" }]
    rfl rfl
    (by
      intro g hg
      rcases List.mem_cons.mp hg with rfl | hg'
      · rfl
      · simp at hg')
    rfl

end FactCheck


